import Mathlib

/-!
Verification development for the BitSacco conversational command gateway
(Rust sources under `src/`).  The Rust code is shallowly embedded: pure
functions become Lean functions, stateful services become explicit
state-passing functions over a cache/breaker state, machine floats carrying
exact decimal amounts are modelled as `Rat`, wall-clock instants as `Nat`
ticks, and fallible calls return `Except AppError α`.  Upstream HTTP
collaborators (BitSacco backend, Coinbase price feed, WhatsApp messaging
API) are modelled as response oracles; every embedded service call records
the observable side effects (HTTP requests, circuit-breaker sections,
mutex acquisitions) in an explicit event trace so that temporal claims
about "which calls go through the breaker" become statements about traces.
-/

deriving instance DecidableEq for Except

namespace BitsaccoBot

/-! ## Error taxonomy (src/error.rs, `AppError`)

The `#[from]` payloads (`anyhow::Error`, `reqwest::Error`,
`serde_json::Error`, `std::io::Error`) are opaque diagnostics; they are
embedded as their display strings. -/

inductive AppError where
  | Config (msg : String)
  | Http (msg : String)
  | Json (msg : String)
  | Io (msg : String)
  | Validation (msg : String)
  | WhatsApp (msg : String)
  | BitSacco (msg : String)
  | BtcService (msg : String)
  | RateLimit
  | Unauthorized
  | Internal (msg : String)
  | UserNotFound
  | InsufficientFunds
  | InvalidCommand (msg : String)
  | VoiceProcessing (msg : String)
  | Network (msg : String)
  | Authentication (msg : String)
  | PermissionDenied (msg : String)
  | ServiceUnavailable (msg : String)
  | Timeout (msg : String)
  | DataNotFound (msg : String)
  | InvalidInput (msg : String)
deriving DecidableEq

/-- Constructor (variant) discriminant of an `AppError`; two errors are
distinguishable "by variant alone" iff their discriminants differ. -/
def AppError.variantIdx : AppError → Nat
  | .Config _ => 0
  | .Http _ => 1
  | .Json _ => 2
  | .Io _ => 3
  | .Validation _ => 4
  | .WhatsApp _ => 5
  | .BitSacco _ => 6
  | .BtcService _ => 7
  | .RateLimit => 8
  | .Unauthorized => 9
  | .Internal _ => 10
  | .UserNotFound => 11
  | .InsufficientFunds => 12
  | .InvalidCommand _ => 13
  | .VoiceProcessing _ => 14
  | .Network _ => 15
  | .Authentication _ => 16
  | .PermissionDenied _ => 17
  | .ServiceUnavailable _ => 18
  | .Timeout _ => 19
  | .DataNotFound _ => 20
  | .InvalidInput _ => 21

/-! ## Command parser (src/types.rs, `BotCommand` and `BotCommand::parse`)

`f64` amounts are embedded as `Rat`: every amount the parser accepts is a
finite decimal literal, which `Rat` represents exactly.  `parseDecimal`
models `str::parse::<f64>` on the decimal-literal fragment of its grammar
(optional sign, integer part, optional fractional part); exponent forms
and the `inf`/`nan` literals are outside the inputs any claim exercises.
Rust `to_lowercase`/`to_uppercase` on the ASCII command keywords agree
with Lean's `String.toLower`/`String.toUpper`. -/

/-- ASCII whitespace; the Rust sources only ever split/trim ASCII text. -/
def isWsp (c : Char) : Bool :=
  c = ' ' ∨ c = '\t' ∨ c = '\n' ∨ c = '\r'

/-- Rust `char::to_lowercase` on ASCII. -/
def lowerChar (c : Char) : Char :=
  if 'A' ≤ c ∧ c ≤ 'Z' then Char.ofNat (c.toNat + 32) else c

/-- Rust `char::to_uppercase` on ASCII. -/
def upperChar (c : Char) : Char :=
  if 'a' ≤ c ∧ c ≤ 'z' then Char.ofNat (c.toNat - 32) else c

/-- Rust `str::to_lowercase` on ASCII. -/
def lowerStr (s : String) : String :=
  String.mk (s.data.map lowerChar)

/-- Rust `str::to_uppercase` on ASCII. -/
def upperStr (s : String) : String :=
  String.mk (s.data.map upperChar)

/-- Rust `str::trim` (ASCII whitespace). -/
def trimStr (s : String) : String :=
  String.mk (((s.data.dropWhile isWsp).reverse.dropWhile isWsp).reverse)

def isPrefixList : List Char → List Char → Bool
  | [], _ => true
  | _ :: _, [] => false
  | a :: as, b :: bs => a = b ∧ isPrefixList as bs

/-- Rust `str::starts_with`. -/
def startsWithStr (s pat : String) : Bool :=
  isPrefixList pat.data s.data

/-- Rust `&s[n..]` / the residue of `strip` by a prefix of length `n`. -/
def dropStr (s : String) (n : Nat) : String :=
  String.mk (s.data.drop n)

def splitWsAux : List Char → List Char → List String
  | [], acc => if acc = [] then [] else [String.mk acc.reverse]
  | c :: cs, acc =>
    if isWsp c then
      if acc = [] then splitWsAux cs []
      else String.mk acc.reverse :: splitWsAux cs []
    else splitWsAux cs (c :: acc)

/-- Rust `str::split_whitespace`: split on whitespace runs, no empty
fragments. -/
def splitWhitespace (s : String) : List String :=
  splitWsAux s.data []

def splitDotAux : List Char → List Char → List String
  | [], acc => [String.mk acc.reverse]
  | c :: cs, acc =>
    if c = '.' then String.mk acc.reverse :: splitDotAux cs []
    else splitDotAux cs (c :: acc)

/-- Split at `.` separators, keeping empty fragments (Rust `str::split('.')`). -/
def splitDot (s : String) : List String :=
  splitDotAux s.data []

def allDigits (s : String) : Bool :=
  s.data.all Char.isDigit

def natVal (s : String) : Nat :=
  s.data.foldl (fun a c => a * 10 + (c.toNat - 48)) 0

def parseDecimal (s : String) : Option Rat :=
  let signBody : Int × List Char :=
    match s.data with
    | '+' :: t => (1, t)
    | '-' :: t => (-1, t)
    | t => (1, t)
  let body := String.mk signBody.2
  match splitDot body with
  | [i] =>
    if i ≠ "" ∧ allDigits i then some (mkRat (signBody.1 * natVal i) 1) else none
  | [i, f] =>
    if (i ≠ "" ∨ f ≠ "") ∧ allDigits i ∧ allDigits f then
      some (mkRat (signBody.1 * (natVal i * 10 ^ f.data.length + natVal f)) (10 ^ f.data.length))
    else none
  | _ => none

inductive BotCommand where
  | Help
  | Balance
  | Savings
  | Chama
  | BtcPrice
  | Deposit (amount : Rat) (currency : String)
  | Withdraw (amount : Rat) (currency : String)
  | Transfer (amount : Rat) (currency : String) (recipient : String)
  | CreateChama (name : String) (description : Option String)
  | ContributeChama (chama_id : String) (amount : Rat) (currency : String)
  | SharesBalance (chama_id : Option String)
  | VoiceCommand (transcript : String)
  | Unknown (raw : String)
deriving DecidableEq

/-- src/types.rs lines 300-311, the `deposit ` branch of `parse`:
`"deposit 100 USD"` needs at least 3 whitespace tokens and a numeric
amount, else the whole (already lowercased) input falls back to `Unknown`. -/
def BotCommand.parseDepositCmd (message : String) : BotCommand :=
  match splitWhitespace message with
  | _ :: amt :: cur :: _ =>
    match parseDecimal amt with
    | some amount => .Deposit amount (upperStr cur)
    | none => .Unknown message
  | _ => .Unknown message

/-- src/types.rs lines 312-323, the `withdraw ` branch of `parse`. -/
def BotCommand.parseWithdrawCmd (message : String) : BotCommand :=
  match splitWhitespace message with
  | _ :: amt :: cur :: _ =>
    match parseDecimal amt with
    | some amount => .Withdraw amount (upperStr cur)
    | none => .Unknown message
  | _ => .Unknown message

/-- src/types.rs lines 324-336, the `transfer ` branch of `parse`
(4 tokens: amount, currency, recipient). -/
def BotCommand.parseTransferCmd (message : String) : BotCommand :=
  match splitWhitespace message with
  | _ :: amt :: cur :: recp :: _ =>
    match parseDecimal amt with
    | some amount => .Transfer amount (upperStr cur) recp
    | none => .Unknown message
  | _ => .Unknown message

/-- src/types.rs lines 337-346, the `create chama ` branch of `parse`:
the remainder after the prefix is the chama name. -/
def BotCommand.parseCreateChamaCmd (message : String) : BotCommand :=
  if dropStr message "create chama ".length ≠ "" then
    .CreateChama (dropStr message "create chama ".length) none
  else .Unknown message

/-- src/types.rs lines 347-359, the `contribute chama ` branch of `parse`
(5 tokens: chama id at index 2, amount at 3, currency at 4). -/
def BotCommand.parseContributeChamaCmd (message : String) : BotCommand :=
  match splitWhitespace message with
  | _ :: _ :: cid :: amt :: cur :: _ =>
    match parseDecimal amt with
    | some amount => .ContributeChama cid amount (upperStr cur)
    | none => .Unknown message
  | _ => .Unknown message

/-- src/types.rs lines 360-369, the `shares balance` branch of `parse`. -/
def BotCommand.parseSharesBalanceCmd (message : String) : BotCommand :=
  match splitWhitespace message with
  | _ :: _ :: cid :: _ => .SharesBalance (some cid)
  | _ => .SharesBalance none

/-- src/types.rs lines 290-373: the body of `BotCommand::parse` after the
initial `trim`/`to_lowercase` normalisation — the keyword ladder, with each
multi-word branch body split into its helper above. -/
def BotCommand.parseNorm (message : String) : BotCommand :=
  if message = "help" ∨ message = "/help" then .Help
  else if message = "balance" ∨ message = "/balance" then .Balance
  else if message = "savings" ∨ message = "/savings" then .Savings
  else if message = "chama" ∨ message = "/chama" then .Chama
  else if message = "btc" ∨ message = "bitcoin" ∨ message = "/btc" then .BtcPrice
  else if startsWithStr message "deposit " then BotCommand.parseDepositCmd message
  else if startsWithStr message "withdraw " then BotCommand.parseWithdrawCmd message
  else if startsWithStr message "transfer " then BotCommand.parseTransferCmd message
  else if startsWithStr message "create chama " then BotCommand.parseCreateChamaCmd message
  else if startsWithStr message "contribute chama " then
    BotCommand.parseContributeChamaCmd message
  else if startsWithStr message "shares balance" then
    BotCommand.parseSharesBalanceCmd message
  else .Unknown message

/-- src/types.rs lines 287-373, `BotCommand::parse`: trim, lowercase, then
match. -/
def BotCommand.parse (message : String) : BotCommand :=
  BotCommand.parseNorm (lowerStr (trimStr message))

/-! ## Circuit breaker (src/circuit_breaker.rs)

`Instant` is embedded as a `Nat` tick count and `Duration` as a `Nat`
number of ticks; `Instant::now().duration_since(t)` becomes saturating
`now - t`, mirroring the never-negative `Duration`.  The upstream closure
`f` is embedded by its (would-be) outcome: `SimpleCircuitBreaker.call`
takes the result the upstream call would produce and additionally reports
whether the upstream was actually invoked, so that rejected calls are
observably distinct from failed upstream calls. -/

inductive CircuitState where
  | Closed
  | Open
  | HalfOpen
deriving DecidableEq

structure SimpleCircuitBreaker where
  state : CircuitState
  failure_count : Nat
  failure_threshold : Nat
  last_failure_time : Option Nat
  recovery_timeout : Nat
deriving DecidableEq

/-- src/circuit_breaker.rs lines 43-51, `SimpleCircuitBreaker::new`. -/
def SimpleCircuitBreaker.new (failure_threshold recovery_timeout : Nat) :
    SimpleCircuitBreaker :=
  { state := .Closed
    failure_count := 0
    failure_threshold := failure_threshold
    last_failure_time := none
    recovery_timeout := recovery_timeout }

/-- src/circuit_breaker.rs lines 77-98: the invoke-and-bookkeep phase of
`SimpleCircuitBreaker::call`, run once the admission decision has been
made (`cb1` is the breaker after the possible `Open → HalfOpen` flip).
On success the breaker closes and resets; on failure the counter bumps,
the failure clock resets to `now`, and the breaker opens once the counter
reaches the threshold. -/
def SimpleCircuitBreaker.callUpstream {α : Type} (cb1 : SimpleCircuitBreaker) (now : Nat)
    (upstream : Except AppError α) :
    SimpleCircuitBreaker × Except AppError α × Bool :=
  match upstream with
  | .ok v =>
    ({ cb1 with state := .Closed, failure_count := 0, last_failure_time := none },
     .ok v, true)
  | .error e =>
    let fc := cb1.failure_count + 1
    ({ cb1 with
        failure_count := fc
        last_failure_time := some now
        state := if cb1.failure_threshold ≤ fc then .Open else cb1.state },
     .error e, true)

/-- src/circuit_breaker.rs lines 53-99, `SimpleCircuitBreaker::call`:
the admission decision (lines 57-75) followed by the upstream invocation
(lines 77-98).  Returns the breaker after the call, the call's result, and
whether the upstream function was invoked (`false` exactly on the
rejected-while-Open paths, which return early without running `f`). -/
def SimpleCircuitBreaker.call {α : Type} (cb : SimpleCircuitBreaker) (now : Nat)
    (upstream : Except AppError α) :
    SimpleCircuitBreaker × Except AppError α × Bool :=
  match cb.state with
  | .Open =>
    match cb.last_failure_time with
    | some last_failure =>
      if cb.recovery_timeout ≤ now - last_failure then
        SimpleCircuitBreaker.callUpstream { cb with state := .HalfOpen } now upstream
      else (cb, .error (.Internal "Circuit breaker is open"), false)
    | none => (cb, .error (.Internal "Circuit breaker is open"), false)
  | .HalfOpen => SimpleCircuitBreaker.callUpstream cb now upstream
  | .Closed => SimpleCircuitBreaker.callUpstream cb now upstream

/-- A sequence of calls whose upstream outcome is always a failure, one per
listed tick. -/
def applyFailures (times : List Nat) (cb : SimpleCircuitBreaker) : SimpleCircuitBreaker :=
  times.foldl
    (fun c t => (c.call t (.error (AppError.BitSacco "upstream failure") : Except AppError Unit)).1)
    cb

/-- Breaker states reachable from a fresh breaker by any sequence of calls
(`SimpleCircuitBreaker.call` state transitions depend only on whether the
upstream outcome is `ok` or `error`, so `Unit`-valued calls are fully
general). -/
inductive BreakerReachable (th tmo : Nat) : SimpleCircuitBreaker → Prop where
  | init : BreakerReachable th tmo (SimpleCircuitBreaker.new th tmo)
  | step {cb : SimpleCircuitBreaker} (now : Nat) (r : Except AppError Unit) :
      BreakerReachable th tmo cb → BreakerReachable th tmo (cb.call now r).1

/-! ## TTL cache (src/cache.rs)

Each moka `Cache` is embedded as an association list of
`(key, value, insertion tick)`; `get` applies lazy TTL expiry (an entry
inserted at `t` is live at `now` iff `now - t < ttl`), `insert` replaces
the entry and resets its clock, `invalidate` removes it.  The
`max_capacity` bound (LRU eviction) is carried in the configuration but
eviction itself is not modelled: no claim exercises a cache beyond a
handful of entries. -/

def cacheLookup {V : Type} (entries : List (String × V × Nat)) (k : String) :
    Option (V × Nat) :=
  match entries.find? (fun e => e.1 = k) with
  | some e => some e.2
  | none => none

def cacheGet {V : Type} (entries : List (String × V × Nat)) (ttl now : Nat)
    (k : String) : Option V :=
  match cacheLookup entries k with
  | some (v, t) => if now - t < ttl then some v else none
  | none => none

def cacheInsert {V : Type} (entries : List (String × V × Nat)) (k : String)
    (v : V) (now : Nat) : List (String × V × Nat) :=
  (k, v, now) :: entries.filter (fun e => e.1 ≠ k)

def cacheInvalidate {V : Type} (entries : List (String × V × Nat)) (k : String) :
    List (String × V × Nat) :=
  entries.filter (fun e => e.1 ≠ k)

/-! ## Data model (src/types.rs, BitSacco API types) -/

structure BitSaccoUser where
  id : String
  phone_number : String
  name : Option String
  email : Option String
  created_at : String
  updated_at : String
deriving DecidableEq

structure BitSaccoSavings where
  id : String
  user_id : String
  amount : Rat
  currency : String
  chama_id : Option String
  created_at : String
  updated_at : String
deriving DecidableEq

structure BitSaccoBtcBalance where
  user_id : String
  balance : Rat
  currency : String
  last_updated : String
deriving DecidableEq

structure BtcPrice where
  currency : String
  price : Rat
  change_24h : Rat
  last_updated : String
deriving DecidableEq

structure BitSaccoTransaction where
  id : String
  user_id : String
  type_ : String
  amount : Rat
  currency : String
  status : String
  created_at : String
  updated_at : String
deriving DecidableEq

/-- M-Pesa STK push request payload; fields as used by
`BitSaccoService::create_mpesa_deposit` (src/services/bitsacco.rs lines
217-223; the defining `types.rs` declaration is referenced there but not
present under src/). -/
structure MpesaStkPushRequest where
  phone_number : String
  amount : Rat
  currency : String
  account_reference : String
  transaction_desc : String
deriving DecidableEq

/-- M-Pesa STK push response; fields as read by
`BitSaccoService::create_mpesa_deposit` (src/services/bitsacco.rs lines
236-242). -/
structure MpesaStkPushResponse where
  merchant_request_id : String
  checkout_request_id : String
  response_code : String
  response_description : String
deriving DecidableEq

/-- src/cache.rs lines 8-25, `CacheConfig` (`Duration` fields as ticks). -/
structure CacheConfig where
  user_cache_ttl : Nat
  btc_price_cache_ttl : Nat
  savings_cache_ttl : Nat
  max_capacity : Nat
deriving DecidableEq

def CacheConfig.default_ : CacheConfig :=
  { user_cache_ttl := 300, btc_price_cache_ttl := 60, savings_cache_ttl := 180
    max_capacity := 1000 }

/-- src/cache.rs lines 29-72, `AppCache`: four independent caches keyed by
phone number (users), currency (prices) and user id (savings, BTC
balance); each keeps its configured TTL.  The BTC-balance cache reuses the
savings TTL (src/cache.rs line 61). -/
structure AppCache where
  user_cache : List (String × BitSaccoUser × Nat)
  btc_price_cache : List (String × BtcPrice × Nat)
  savings_cache : List (String × List BitSaccoSavings × Nat)
  btc_balance_cache : List (String × BitSaccoBtcBalance × Nat)
  user_ttl : Nat
  btc_price_ttl : Nat
  savings_ttl : Nat
deriving DecidableEq

def AppCache.new (config : CacheConfig) : AppCache :=
  { user_cache := [], btc_price_cache := [], savings_cache := [], btc_balance_cache := []
    user_ttl := config.user_cache_ttl
    btc_price_ttl := config.btc_price_cache_ttl
    savings_ttl := config.savings_cache_ttl }

def AppCache.get_user (c : AppCache) (now : Nat) (phone_number : String) :
    Option BitSaccoUser :=
  cacheGet c.user_cache c.user_ttl now phone_number

def AppCache.set_user (c : AppCache) (now : Nat) (phone_number : String)
    (user : BitSaccoUser) : AppCache :=
  { c with user_cache := cacheInsert c.user_cache phone_number user now }

def AppCache.get_btc_price (c : AppCache) (now : Nat) (currency : String) :
    Option BtcPrice :=
  cacheGet c.btc_price_cache c.btc_price_ttl now currency

def AppCache.set_btc_price (c : AppCache) (now : Nat) (currency : String)
    (price : BtcPrice) : AppCache :=
  { c with btc_price_cache := cacheInsert c.btc_price_cache currency price now }

def AppCache.get_savings (c : AppCache) (now : Nat) (user_id : String) :
    Option (List BitSaccoSavings) :=
  cacheGet c.savings_cache c.savings_ttl now user_id

def AppCache.set_savings (c : AppCache) (now : Nat) (user_id : String)
    (savings : List BitSaccoSavings) : AppCache :=
  { c with savings_cache := cacheInsert c.savings_cache user_id savings now }

def AppCache.get_btc_balance (c : AppCache) (now : Nat) (user_id : String) :
    Option BitSaccoBtcBalance :=
  cacheGet c.btc_balance_cache c.savings_ttl now user_id

def AppCache.set_btc_balance (c : AppCache) (now : Nat) (user_id : String)
    (balance : BitSaccoBtcBalance) : AppCache :=
  { c with btc_balance_cache := cacheInsert c.btc_balance_cache user_id balance now }

def AppCache.invalidate_user (c : AppCache) (phone_number : String) : AppCache :=
  { c with user_cache := cacheInvalidate c.user_cache phone_number }

def AppCache.invalidate_savings (c : AppCache) (user_id : String) : AppCache :=
  { c with savings_cache := cacheInvalidate c.savings_cache user_id }

def AppCache.invalidate_btc_balance (c : AppCache) (user_id : String) : AppCache :=
  { c with btc_balance_cache := cacheInvalidate c.btc_balance_cache user_id }

/-! ## Upstream collaborators and event traces

The HTTP collaborators (BitSacco backend, Coinbase price feed, WhatsApp
messaging API) are external services: they are embedded as a response
oracle.  Each embedded service method appends to an event trace one
`httpRequest` event per HTTP request it issues (`make_request` /
`make_post_request` in src/services/bitsacco.rs, `make_request` in
src/services/btc.rs, the `reqwest` POST in
`WhatsAppService::send_message`), and a `breakerEnter`/`breakerExit` pair
per `SimpleCircuitBreaker::call` section entered via the
`ApiCircuitBreaker` wrappers (src/circuit_breaker.rs lines 137-161).
A claim of the form "requests happen only inside the breaker" is then a
statement about the trace. -/

inductive UpstreamEvent where
  | httpRequest (upstream endpoint : String)
  | breakerEnter (upstream : String)
  | breakerExit (upstream : String)
deriving DecidableEq

/-- Count of HTTP requests in a trace. -/
def countHttp : List UpstreamEvent → Nat
  | [] => 0
  | .httpRequest _ _ :: rest => 1 + countHttp rest
  | .breakerEnter _ :: rest => countHttp rest
  | .breakerExit _ :: rest => countHttp rest

/-- Count of HTTP requests issued at breaker-section depth 0, i.e. outside
every `CircuitBreaker.call`. -/
def countHttpOutsideBreakerAux : List UpstreamEvent → Nat → Nat
  | [], _ => 0
  | .httpRequest _ _ :: rest, d =>
    (if d = 0 then 1 else 0) + countHttpOutsideBreakerAux rest d
  | .breakerEnter _ :: rest, d => countHttpOutsideBreakerAux rest (d + 1)
  | .breakerExit _ :: rest, d => countHttpOutsideBreakerAux rest (d - 1)

def countHttpOutsideBreaker (evts : List UpstreamEvent) : Nat :=
  countHttpOutsideBreakerAux evts 0

/-- True iff the trace contains no breaker section at all (every event is a
bare HTTP request). -/
def breakerFreeTrace (evts : List UpstreamEvent) : Bool :=
  evts.all (fun e => match e with | .httpRequest _ _ => true | _ => false)

/-- Response oracle for the upstream HTTP collaborators, keyed the way the
services address them. -/
structure UpstreamOracle where
  userByPhone : String → Except AppError BitSaccoUser
  userById : String → Except AppError BitSaccoUser
  savingsOf : String → Except AppError (List BitSaccoSavings)
  btcBalanceOf : String → Except AppError BitSaccoBtcBalance
  stkPush : MpesaStkPushRequest → Except AppError MpesaStkPushResponse
  postTransaction : String → Rat → String → Except AppError BitSaccoTransaction
  btcSpotAmount : String → Except AppError String
  whatsappSend : String → String → Except AppError Unit

/-! ## BitSacco service (src/services/bitsacco.rs)

Each embedded method threads the `AppCache` explicitly (the Rust methods
receive `&AppCache`) and returns `(result, cache, trace)`. -/

/-- src/services/bitsacco.rs lines 119-135, `BitSaccoService::get_user_by_phone`. -/
def BitSaccoService.get_user_by_phone (up : UpstreamOracle) (phone_number : String)
    (cache : AppCache) (now : Nat) :
    Except AppError BitSaccoUser × AppCache × List UpstreamEvent :=
  match cache.get_user now phone_number with
  | some cached_user => (.ok cached_user, cache, [])
  | none =>
    let endpoint := "users/phone/" ++ phone_number
    match up.userByPhone phone_number with
    | .ok user =>
      (.ok user, cache.set_user now phone_number user, [.httpRequest "bitsacco" endpoint])
    | .error e => (.error e, cache, [.httpRequest "bitsacco" endpoint])

/-- src/services/bitsacco.rs lines 137-153, `BitSaccoService::get_user_savings`. -/
def BitSaccoService.get_user_savings (up : UpstreamOracle) (user_id : String)
    (cache : AppCache) (now : Nat) :
    Except AppError (List BitSaccoSavings) × AppCache × List UpstreamEvent :=
  match cache.get_savings now user_id with
  | some cached_savings => (.ok cached_savings, cache, [])
  | none =>
    let endpoint := "users/" ++ user_id ++ "/savings"
    match up.savingsOf user_id with
    | .ok savings =>
      (.ok savings, cache.set_savings now user_id savings, [.httpRequest "bitsacco" endpoint])
    | .error e => (.error e, cache, [.httpRequest "bitsacco" endpoint])

/-- src/services/bitsacco.rs lines 160-176, `BitSaccoService::get_user_btc_balance`. -/
def BitSaccoService.get_user_btc_balance (up : UpstreamOracle) (user_id : String)
    (cache : AppCache) (now : Nat) :
    Except AppError BitSaccoBtcBalance × AppCache × List UpstreamEvent :=
  match cache.get_btc_balance now user_id with
  | some cached_balance => (.ok cached_balance, cache, [])
  | none =>
    let endpoint := "users/" ++ user_id ++ "/btc-balance"
    match up.btcBalanceOf user_id with
    | .ok balance =>
      (.ok balance, cache.set_btc_balance now user_id balance,
       [.httpRequest "bitsacco" endpoint])
    | .error e => (.error e, cache, [.httpRequest "bitsacco" endpoint])

/-- Exact rational addition written through `mkRat` so that it computes by
kernel reduction (`Rat.add` is `@[irreducible]`); `ratAdd_eq_add` shows it
agrees with `+`. -/
def ratAdd (a b : Rat) : Rat :=
  mkRat (a.num * b.den + b.num * a.den) (a.den * b.den)

/-- Sum of a list of exact rationals (Rust `Iterator::sum` over `f64`). -/
def ratSum (l : List Rat) : Rat :=
  l.foldr ratAdd 0

/-- src/services/bitsacco.rs lines 290-294, `BitSaccoService::get_total_savings`. -/
def BitSaccoService.get_total_savings (up : UpstreamOracle) (user_id : String)
    (cache : AppCache) (now : Nat) :
    Except AppError Rat × AppCache × List UpstreamEvent :=
  match BitSaccoService.get_user_savings up user_id cache now with
  | (.ok savings, c1, ev1) => (.ok (ratSum (savings.map (fun s => s.amount))), c1, ev1)
  | (.error e, c1, ev1) => (.error e, c1, ev1)

/-- src/services/bitsacco.rs lines 249-252, `BitSaccoService::get_user_by_id`
(uncached `make_request`). -/
def BitSaccoService.get_user_by_id (up : UpstreamOracle) (user_id : String) :
    Except AppError BitSaccoUser × List UpstreamEvent :=
  (up.userById user_id, [.httpRequest "bitsacco" ("users/" ++ user_id)])

/-- src/services/bitsacco.rs lines 208-246, `BitSaccoService::create_mpesa_deposit`
(`get_user_by_id`, lines 249-252, inlined: one `make_request` to
`users/{id}`). -/
def BitSaccoService.create_mpesa_deposit (up : UpstreamOracle) (user_id : String)
    (amount : Rat) :
    Except AppError BitSaccoTransaction × List UpstreamEvent :=
  match up.userById user_id with
  | .error e => (.error e, [.httpRequest "bitsacco" ("users/" ++ user_id)])
  | .ok user =>
    match up.stkPush
      { phone_number := user.phone_number
        amount := amount
        currency := "KES"
        account_reference := "BITSACCO_" ++ user_id
        transaction_desc := "BitSacco deposit" } with
    | .error e =>
      (.error e,
       [.httpRequest "bitsacco" ("users/" ++ user_id),
        .httpRequest "bitsacco" "mpesa/stk-push"])
    | .ok _ =>
      (up.postTransaction user_id amount "KES",
       [.httpRequest "bitsacco" ("users/" ++ user_id),
        .httpRequest "bitsacco" "mpesa/stk-push",
        .httpRequest "bitsacco" "transactions"])

/-- src/services/bitsacco.rs lines 184-205, `BitSaccoService::create_deposit`. -/
def BitSaccoService.create_deposit (up : UpstreamOracle) (user_id : String)
    (amount : Rat) (currency : String) :
    Except AppError BitSaccoTransaction × List UpstreamEvent :=
  if upperStr currency = "KES" then
    BitSaccoService.create_mpesa_deposit up user_id amount
  else
    (up.postTransaction user_id amount currency, [.httpRequest "bitsacco" "transactions"])

/-! ## BTC price service (src/services/btc.rs)

The Coinbase JSON envelope is elided: the oracle returns the
`data.amount` string the service extracts, and a missing/invalid envelope
is folded into the oracle's error outcome.  The `last_updated` wall-clock
string is not modelled (set to `""`). -/

/-- src/services/btc.rs lines 94-125, `BtcService::get_btc_price_from_coinbase`. -/
def BtcService.get_btc_price_from_coinbase (up : UpstreamOracle) (currency : String) :
    Except AppError BtcPrice × List UpstreamEvent :=
  let endpoint := "prices/BTC-" ++ upperStr currency ++ "/spot"
  match up.btcSpotAmount currency with
  | .error e => (.error e, [.httpRequest "btc" endpoint])
  | .ok price_str =>
    match parseDecimal price_str with
    | none => (.error (.BtcService "Invalid price format"), [.httpRequest "btc" endpoint])
    | some price =>
      (.ok { currency := upperStr currency, price := price, change_24h := 0, last_updated := "" },
       [.httpRequest "btc" endpoint])

/-- src/services/btc.rs lines 77-92, `BtcService::get_btc_price`. -/
def BtcService.get_btc_price (up : UpstreamOracle) (currency : String)
    (cache : AppCache) (now : Nat) :
    Except AppError BtcPrice × AppCache × List UpstreamEvent :=
  match cache.get_btc_price now currency with
  | some cached_price => (.ok cached_price, cache, [])
  | none =>
    match BtcService.get_btc_price_from_coinbase up currency with
    | (.error e, ev) => (.error e, cache, ev)
    | (.ok price, ev) => (.ok price, cache.set_btc_price now currency price, ev)

/-- src/services/btc.rs lines 127-129, `BtcService::get_btc_price_usd`. -/
def BtcService.get_btc_price_usd (up : UpstreamOracle) (cache : AppCache) (now : Nat) :
    Except AppError BtcPrice × AppCache × List UpstreamEvent :=
  BtcService.get_btc_price up "usd" cache now

/-! ## WhatsApp service (src/services/whatsapp.rs)

`send_message` issues its POST directly through its own `reqwest` client;
the message body text is not semantically relevant to any claim and is
carried opaquely. -/

/-- src/services/whatsapp.rs lines 80-133, `WhatsAppService::send_message`. -/
def WhatsAppService.send_message (up : UpstreamOracle) (to_ : String) (message : String) :
    Except AppError Unit × List UpstreamEvent :=
  if 4096 < message.data.length then
    (.error (.Validation "Message too long"), [])
  else
    (up.whatsappSend to_ message, [.httpRequest "whatsapp" "messages"])

/-! ## Validation (src/validation.rs)

`validate_amount` receives an exact decimal as `Rat`; the Rust
`(amount * 100.0).fract() != 0.0` two-decimal-places test becomes "the
denominator of `amount * 100` is 1" (`mkRat` renormalises, which on exact
decimals is the intended meaning of the float test). -/

/-- src/validation.rs lines 42-63, `validate_amount`. -/
def validate_amount (amount : Rat) : Except AppError Unit :=
  if amount ≤ 0 then
    .error (.Validation "Amount must be greater than 0")
  else if (1000000 : Rat) < amount then
    .error (.Validation "Amount exceeds maximum limit of 1,000,000")
  else if (mkRat (amount.num * 100) amount.den).den ≠ 1 then
    .error (.Validation "Amount cannot have more than 2 decimal places")
  else
    .ok ()

/-- src/validation.rs lines 26-39, `validate_currency` (regex `^[A-Z]{3}$`). -/
def validate_currency (currency : String) : Except AppError Unit :=
  if currency.data.length = 3 ∧ currency.data.all (fun c => 'A' ≤ c ∧ c ≤ 'Z') then
    .ok ()
  else
    .error (.Validation ("Invalid currency code: " ++ currency))

/-! ## Webhook dispatch (src/webhook.rs)

The dispatch helpers thread the cache state and accumulate the event
trace.  All calls within one inbound message dispatch are stamped with the
same tick `now`. -/

/-- src/webhook.rs lines 731-745, `validate_registered_user`. -/
def validate_registered_user (up : UpstreamOracle) (cache : AppCache) (now : Nat)
    (phone_number : String) :
    Except AppError Unit × AppCache × List UpstreamEvent :=
  match BitSaccoService.get_user_by_phone up phone_number cache now with
  | (.ok _, c1, ev1) => (.ok (), c1, ev1)
  | (.error _, c1, ev1) =>
    (.error (.Validation "Access Denied: not registered with BitSacco"), c1, ev1)

/-- src/webhook.rs lines 747-761, `get_user_balance`. -/
def get_user_balance (up : UpstreamOracle) (cache : AppCache) (now : Nat)
    (phone_number : String) :
    Except AppError (Rat × Rat × String) × AppCache × List UpstreamEvent :=
  match BitSaccoService.get_user_by_phone up phone_number cache now with
  | (.error e, c1, ev1) => (.error e, c1, ev1)
  | (.ok user, c1, ev1) =>
    match BitSaccoService.get_total_savings up user.id c1 now with
    | (.error e, c2, ev2) => (.error e, c2, ev1 ++ ev2)
    | (.ok savings, c2, ev2) =>
      match BitSaccoService.get_user_btc_balance up user.id c2 now with
      | (.error e, c3, ev3) => (.error e, c3, ev1 ++ ev2 ++ ev3)
      | (.ok btc_balance, c3, ev3) =>
        (.ok (savings, btc_balance.balance, btc_balance.currency), c3, ev1 ++ ev2 ++ ev3)

/-- src/webhook.rs lines 787-802, `create_deposit` (webhook helper):
resolve the user via the cached lookup, then post the deposit. -/
def webhook_create_deposit (up : UpstreamOracle) (cache : AppCache) (now : Nat)
    (phone_number : String) (amount : Rat) (currency : String) :
    Except AppError BitSaccoTransaction × AppCache × List UpstreamEvent :=
  match BitSaccoService.get_user_by_phone up phone_number cache now with
  | (.error e, c1, ev1) => (.error e, c1, ev1)
  | (.ok user, c1, ev1) =>
    match BitSaccoService.create_deposit up user.id amount currency with
    | (r, ev2) => (r, c1, ev1 ++ ev2)

/-- src/webhook.rs lines 144-148 and 255-313: the `process_text_message`
dispatch for a `Deposit` command along its default (M-Pesa) payment
branch — registration check, amount/currency validation, the KES-only
gate, the deposit itself, and the success/error reply.  The formatted
reply text is carried opaquely by the messaging oracle. -/
def process_text_deposit (up : UpstreamOracle) (cache : AppCache) (now : Nat)
    (phone_number : String) (amount : Rat) (currency : String) :
    Except AppError Unit × AppCache × List UpstreamEvent :=
  match validate_registered_user up cache now phone_number with
  | (.error e, c0, ev0) => (.error e, c0, ev0)
  | (.ok _, c0, ev0) =>
    match validate_amount amount with
    | .error e => (.error e, c0, ev0)
    | .ok _ =>
      match validate_currency currency with
      | .error e => (.error e, c0, ev0)
      | .ok _ =>
        if upperStr currency ≠ "KES" then
          match WhatsAppService.send_message up phone_number "deposit-error-kes-only" with
          | (.error e, ev1) => (.error e, c0, ev0 ++ ev1)
          | (.ok _, ev1) => (.ok (), c0, ev0 ++ ev1)
        else
          match webhook_create_deposit up c0 now phone_number amount currency with
          | (.ok _, c1, ev1) =>
            match WhatsAppService.send_message up phone_number "deposit-success" with
            | (.error e, ev2) => (.error e, c1, ev0 ++ ev1 ++ ev2)
            | (.ok _, ev2) => (.ok (), c1, ev0 ++ ev1 ++ ev2)
          | (.error _, c1, ev1) =>
            match WhatsAppService.send_message up phone_number "deposit-error" with
            | (.error e, ev2) => (.error e, c1, ev0 ++ ev1 ++ ev2)
            | (.ok _, ev2) => (.ok (), c1, ev0 ++ ev1 ++ ev2)

/-! ## Rate limiter (src/rate_limit.rs) and webhook admission (src/webhook.rs)

The governor bucket is embedded as its available-token count; a fresh
limiter starts at full burst capacity and `check` consumes one token if
available.  Continuous refill is not modelled: `handle_webhook`
constructs a fresh limiter per request and checks it exactly once, so no
refill instant is ever observable. -/

structure RateLimitConfig where
  requests_per_minute : Nat
  burst_size : Nat
deriving DecidableEq

structure RateLimiterService where
  tokens : Nat
deriving DecidableEq

/-- src/rate_limit.rs lines 29-38, `RateLimiterService::new`: a fresh
bucket holds `burst_size` tokens. -/
def RateLimiterService.new (config : RateLimitConfig) : RateLimiterService :=
  { tokens := config.burst_size }

/-- src/rate_limit.rs lines 40-50, `RateLimiterService::check_rate_limit`. -/
def RateLimiterService.check_rate_limit (rl : RateLimiterService) :
    Except AppError Unit × RateLimiterService :=
  if rl.tokens = 0 then (.error .RateLimit, rl)
  else (.ok (), { tokens := rl.tokens - 1 })

/-- src/webhook.rs lines 36-43, the rate-limit admission prefix of
`handle_webhook`: a brand-new limiter with burst size 10 is built for the
single request and checked once. -/
def handle_webhook_admission (requests_per_minute : Nat) : Except AppError Unit :=
  let rate_limiter := RateLimiterService.new
    { requests_per_minute := requests_per_minute, burst_size := 10 }
  (rate_limiter.check_rate_limit).1

/-- Admission outcomes for a whole sequence of inbound webhook requests;
each request runs `handle_webhook`, hence builds its own fresh limiter. -/
def webhook_admissions (requests_per_minute n : Nat) : List (Except AppError Unit) :=
  List.replicate n (handle_webhook_admission requests_per_minute)

/-! ## Lock discipline of the breaker wrappers (src/circuit_breaker.rs 137-161)

`ApiCircuitBreaker::call_whatsapp_api` (and its bitsacco/btc twins) runs
`self.whatsapp_breaker.lock().await` and then `breaker.call(f).await` —
the upstream future is awaited while the `tokio::sync::Mutex` guard is
still alive.  One wrapper call is embedded as its sequence of lock-related
events; the upstream invocation sits between acquire and release. -/

inductive LockEvent where
  | acquire
  | upstreamInvoke
  | release
deriving DecidableEq

/-- Event sequence of one `ApiCircuitBreaker::call_whatsapp_api` execution:
acquire the breaker mutex, run `SimpleCircuitBreaker::call` (which invokes
the upstream future), drop the guard. -/
def call_whatsapp_api_events : List LockEvent :=
  [.acquire, .upstreamInvoke, .release]

/-- Mutex-section depth reached just before event index `i`. -/
def lockDepthBefore (evts : List LockEvent) (i : Nat) : Nat :=
  ((evts.take i).filter (fun e => e = .acquire)).length -
    ((evts.take i).filter (fun e => e = .release)).length

/-- True iff every upstream invocation in the trace happens at mutex depth
0, i.e. outside the breaker's lock. -/
def invokesOutsideLock (evts : List LockEvent) : Bool :=
  (List.range evts.length).all (fun i =>
    match evts.get? i with
    | some .upstreamInvoke => lockDepthBefore evts i = 0
    | _ => true)

/-- True iff every upstream invocation in the trace happens while the mutex
is held. -/
def invokesUnderLock (evts : List LockEvent) : Bool :=
  (List.range evts.length).all (fun i =>
    match evts.get? i with
    | some .upstreamInvoke => 0 < lockDepthBefore evts i
    | _ => true)

/-- Interleaving of two concurrent `call_whatsapp_api` executions against
the same breaker: program counters of both tasks, the mutex holder, and a
flag recording whether at some point both tasks were simultaneously inside
their acquire..release section (which is where the upstream invocation
lives). -/
structure InterleavingState where
  pc1 : Nat
  pc2 : Nat
  holder : Option Bool
  bothInFlight : Bool
deriving DecidableEq

def initInterleaving : InterleavingState :=
  { pc1 := 0, pc2 := 0, holder := none, bothInFlight := false }

/-- In-section predicate: the task has executed its acquire but not yet its
release. -/
def inSection (pc : Nat) : Bool :=
  1 ≤ pc ∧ pc ≤ 2

/-- One scheduler step: run the next event of the chosen task (`true` =
task 1).  `none` means the chosen task cannot step (it is finished, it
would block on the mutex, or it would release a mutex it does not hold) —
such a step never occurs in a real execution. -/
def stepTask (which : Bool) (st : InterleavingState) : Option InterleavingState :=
  let pc := if which then st.pc1 else st.pc2
  match call_whatsapp_api_events.get? pc with
  | none => none
  | some ev =>
    let holder' : Option (Option Bool) :=
      match ev with
      | .acquire => match st.holder with
        | some _ => none
        | none => some (some which)
      | .upstreamInvoke => some st.holder
      | .release => if st.holder = some which then some none else none
    match holder' with
    | none => none
    | some h =>
      let pc1' := if which then st.pc1 + 1 else st.pc1
      let pc2' := if which then st.pc2 else st.pc2 + 1
      some { pc1 := pc1', pc2 := pc2', holder := h
             bothInFlight := st.bothInFlight ∨ (inSection pc1' ∧ inSection pc2') }

def runSchedule : List Bool → InterleavingState → Option InterleavingState
  | [], st => some st
  | w :: rest, st =>
    match stepTask w st with
    | none => none
    | some st' => runSchedule rest st'

def allBoolLists : Nat → List (List Bool)
  | 0 => [[]]
  | n + 1 => (allBoolLists n).flatMap (fun l => [true :: l, false :: l])

/-- Whether any legal interleaving of two concurrent `call_whatsapp_api`
executions puts both upstream invocations in flight simultaneously. -/
def overlapPossible : Bool :=
  (allBoolLists 6).any (fun s =>
    match runSchedule s initInterleaving with
    | some st => st.bothInFlight
    | none => false)

end BitsaccoBot

namespace BitsaccoBot

/-! ## Concrete fixtures

A registered user with one cached savings record and a cached BTC balance,
and an all-successful upstream oracle; used by the concrete
counterexamples and witnesses below. -/

def exUser : BitSaccoUser :=
  { id := "u1", phone_number := "+254700000001", name := none, email := none
    created_at := "t0", updated_at := "t0" }

def exSaving : BitSaccoSavings :=
  { id := "s1", user_id := "u1", amount := 500, currency := "KES", chama_id := none
    created_at := "t0", updated_at := "t0" }

def exBal : BitSaccoBtcBalance :=
  { user_id := "u1", balance := mkRat 1 2, currency := "BTC", last_updated := "t0" }

def exTx : BitSaccoTransaction :=
  { id := "tx1", user_id := "u1", type_ := "deposit", amount := 100, currency := "KES"
    status := "pending", created_at := "t1", updated_at := "t1" }

def exOracle : UpstreamOracle :=
  { userByPhone := fun _ => .ok exUser
    userById := fun _ => .ok exUser
    savingsOf := fun _ => .ok [exSaving]
    btcBalanceOf := fun _ => .ok exBal
    stkPush := fun _ => .ok ⟨"m1", "c1", "0", "ok"⟩
    postTransaction := fun _ _ _ => .ok exTx
    btcSpotAmount := fun _ => .ok "50000.00"
    whatsappSend := fun _ _ => .ok () }

/-- Cache state before the deposit: the user's profile, savings and BTC
balance were all cached at tick 0 (well within their TTLs at tick 1). -/
def exCache : AppCache :=
  (((AppCache.new CacheConfig.default_).set_user 0 "+254700000001" exUser).set_savings 0
      "u1" [exSaving]).set_btc_balance 0 "u1" exBal

/-- A breaker for the BitSacco upstream driven to `Open` by five
consecutive failures at tick 0 (default threshold 5, timeout 30). -/
def cbOpenExample : SimpleCircuitBreaker :=
  applyFailures [0, 0, 0, 0, 0] (SimpleCircuitBreaker.new 5 30)

end BitsaccoBot

namespace BitsaccoBot

/-! ## Parser claims -/

/-- C4: `BotCommand.parse` is a total function — every input string maps to
exactly one command — and satisfies the spec's examples:
`parse "help" = Help`, `parse "DEPOSIT 100 usd" = Deposit 100 "USD"`,
`parse "deposit 100" = Unknown "deposit 100"`, and
`parse "transfer 25 USD +254712345678" = Transfer 25 "USD" "+254712345678"`. -/
theorem C4_parse_total_and_examples :
    (∀ s : String, ∃! c : BotCommand, BotCommand.parse s = c) ∧
    BotCommand.parse "help" = .Help ∧
    BotCommand.parse "DEPOSIT 100 usd" = .Deposit 100 "USD" ∧
    BotCommand.parse "deposit 100" = .Unknown "deposit 100" ∧
    BotCommand.parse "transfer 25 USD +254712345678" =
      .Transfer 25 "USD" "+254712345678" := by
  refine ⟨fun s => ⟨BotCommand.parse s, rfl, fun y h => h.symm⟩, ?_, ?_, ?_, ?_⟩ <;> decide

theorem parse_branch_ne_voice (m t : String) :
    BotCommand.parseDepositCmd m ≠ .VoiceCommand t ∧
    BotCommand.parseWithdrawCmd m ≠ .VoiceCommand t ∧
    BotCommand.parseTransferCmd m ≠ .VoiceCommand t ∧
    BotCommand.parseCreateChamaCmd m ≠ .VoiceCommand t ∧
    BotCommand.parseContributeChamaCmd m ≠ .VoiceCommand t ∧
    BotCommand.parseSharesBalanceCmd m ≠ .VoiceCommand t := by
  unfold BotCommand.parseDepositCmd BotCommand.parseWithdrawCmd BotCommand.parseTransferCmd
    BotCommand.parseCreateChamaCmd BotCommand.parseContributeChamaCmd
    BotCommand.parseSharesBalanceCmd
  refine ⟨?_, ?_, ?_, ?_, ?_, ?_⟩
  all_goals intro h
  all_goals (repeat' (split at h))
  all_goals exact BotCommand.noConfusion h

set_option maxHeartbeats 1600000 in
theorem parseNorm_ne_voice (m t : String) :
    BotCommand.parseNorm m ≠ .VoiceCommand t := by
  intro h
  unfold BotCommand.parseNorm at h
  obtain ⟨h1, h2, h3, h4, h5, h6⟩ := parse_branch_ne_voice m t
  (repeat' (split at h))
  all_goals first
  | exact BotCommand.noConfusion h
  | exact h1 h
  | exact h2 h
  | exact h3 h
  | exact h4 h
  | exact h5 h
  | exact h6 h

theorem parse_branch_unknown_eq (m t : String) :
    (BotCommand.parseDepositCmd m = .Unknown t → t = m) ∧
    (BotCommand.parseWithdrawCmd m = .Unknown t → t = m) ∧
    (BotCommand.parseTransferCmd m = .Unknown t → t = m) ∧
    (BotCommand.parseCreateChamaCmd m = .Unknown t → t = m) ∧
    (BotCommand.parseContributeChamaCmd m = .Unknown t → t = m) ∧
    (BotCommand.parseSharesBalanceCmd m = .Unknown t → t = m) := by
  unfold BotCommand.parseDepositCmd BotCommand.parseWithdrawCmd BotCommand.parseTransferCmd
    BotCommand.parseCreateChamaCmd BotCommand.parseContributeChamaCmd
    BotCommand.parseSharesBalanceCmd
  refine ⟨?_, ?_, ?_, ?_, ?_, ?_⟩
  all_goals intro h
  all_goals (repeat' (split at h))
  all_goals first
  | exact BotCommand.noConfusion h
  | (injection h with h1; exact h1.symm)

set_option maxHeartbeats 1600000 in
theorem parseNorm_unknown_eq {m t : String}
    (h : BotCommand.parseNorm m = .Unknown t) : t = m := by
  unfold BotCommand.parseNorm at h
  obtain ⟨h1, h2, h3, h4, h5, h6⟩ := parse_branch_unknown_eq m t
  (repeat' (split at h))
  all_goals first
  | exact BotCommand.noConfusion h
  | exact h1 h
  | exact h2 h
  | exact h3 h
  | exact h4 h
  | exact h5 h
  | exact h6 h
  | (injection h with hh; exact hh.symm)

/-- C10: `BotCommand.parse` never returns the `VoiceCommand` variant, for
any input string; hence a re-dispatched transcript can never parse to
`VoiceCommand` and voice indirection cannot recurse. -/
theorem C10_parse_never_voice_command (s t : String) :
    BotCommand.parse s ≠ .VoiceCommand t :=
  parseNorm_ne_voice (lowerStr (trimStr s)) t

/-- C5 counterexample: the claim says unmatched free text is stored in
`Unknown` unaltered, e.g. `parse "HELLO World" = Unknown "HELLO World"`;
in fact the parser lowercases the whole message before matching and stores
the lowercased text. -/
theorem C5_counterexample :
    BotCommand.parse "HELLO World" = .Unknown "hello world" ∧
    BotCommand.parse "HELLO World" ≠ .Unknown "HELLO World" := by decide

/-- C5 (amended): whenever `parse` returns `Unknown`, the stored payload is
the trimmed-and-lowercased input, not the original text. -/
theorem C5_unknown_carries_lowercased_text (s t : String)
    (h : BotCommand.parse s = .Unknown t) : t = lowerStr (trimStr s) :=
  parseNorm_unknown_eq h

/-- C5 witness: the amended fact at the concrete counterexample input. -/
theorem C5_unknown_carries_lowercased_text_witness :
    "hello world" = lowerStr (trimStr "HELLO World") :=
  C5_unknown_carries_lowercased_text "HELLO World" "hello world" (by decide)

end BitsaccoBot

namespace BitsaccoBot

/-! ## Circuit breaker claims -/

theorem callUpstream_preserves_config {α : Type} (cb1 : SimpleCircuitBreaker) (now : Nat)
    (r : Except AppError α) :
    (cb1.callUpstream now r).1.failure_threshold = cb1.failure_threshold ∧
    (cb1.callUpstream now r).1.recovery_timeout = cb1.recovery_timeout := by
  rcases r <;> simp [SimpleCircuitBreaker.callUpstream]

theorem call_preserves_config {α : Type} (cb : SimpleCircuitBreaker) (now : Nat)
    (r : Except AppError α) :
    (cb.call now r).1.failure_threshold = cb.failure_threshold ∧
    (cb.call now r).1.recovery_timeout = cb.recovery_timeout := by
  unfold SimpleCircuitBreaker.call
  (repeat' split) <;> simp [callUpstream_preserves_config]

theorem callUpstream_count_inv {α : Type} (cb1 : SimpleCircuitBreaker) (now : Nat)
    (r : Except AppError α)
    (h : cb1.state ≠ .Closed → cb1.failure_threshold ≤ cb1.failure_count) :
    (cb1.callUpstream now r).1.state ≠ .Closed →
      (cb1.callUpstream now r).1.failure_threshold ≤
        (cb1.callUpstream now r).1.failure_count := by
  rcases r with e | v
  · simp only [SimpleCircuitBreaker.callUpstream]
    split
    · rename_i hth
      intro _
      simpa using hth
    · intro hne
      have := h (by simpa using hne)
      show cb1.failure_threshold ≤ cb1.failure_count + 1
      omega
  · simp [SimpleCircuitBreaker.callUpstream]

theorem call_count_inv {α : Type} (cb : SimpleCircuitBreaker) (now : Nat)
    (r : Except AppError α)
    (h : cb.state ≠ .Closed → cb.failure_threshold ≤ cb.failure_count) :
    (cb.call now r).1.state ≠ .Closed →
      (cb.call now r).1.failure_threshold ≤ (cb.call now r).1.failure_count := by
  unfold SimpleCircuitBreaker.call
  split
  · rename_i hst
    split
    · split
      · apply callUpstream_count_inv
        intro _
        exact h (by rw [hst]; exact fun hh => CircuitState.noConfusion hh)
      · exact h
    · exact h
  · exact callUpstream_count_inv _ now r h
  · exact callUpstream_count_inv _ now r h

theorem breakerReachable_inv {th tmo : Nat} {cb : SimpleCircuitBreaker}
    (h : BreakerReachable th tmo cb) :
    cb.failure_threshold = th ∧ cb.recovery_timeout = tmo ∧
    (cb.state ≠ .Closed → th ≤ cb.failure_count) := by
  induction h with
  | init => simp [SimpleCircuitBreaker.new]
  | step now r _ ih =>
    obtain ⟨hth, htmo, hinv⟩ := ih
    refine ⟨?_, ?_, ?_⟩
    · rw [(call_preserves_config _ now r).1, hth]
    · rw [(call_preserves_config _ now r).2, htmo]
    · intro hne
      have h1 := call_count_inv _ now r
        (fun hc => by rw [hth]; exact hinv hc) hne
      rw [(call_preserves_config _ now r).1, hth] at h1
      exact h1

theorem call_closed_err (cb : SimpleCircuitBreaker) (now : Nat) (e : AppError)
    (hst : cb.state = .Closed) :
    (cb.call now (.error e : Except AppError Unit)).1 =
      { cb with
          failure_count := cb.failure_count + 1
          last_failure_time := some now
          state :=
            if cb.failure_threshold ≤ cb.failure_count + 1 then .Open else .Closed } := by
  obtain ⟨st, fc, th, lf, rt⟩ := cb
  cases hst
  simp [SimpleCircuitBreaker.call, SimpleCircuitBreaker.callUpstream]

theorem call_open_blocked {α : Type} (cb : SimpleCircuitBreaker) (now t : Nat)
    (r : Except AppError α)
    (hst : cb.state = .Open) (hlf : cb.last_failure_time = some t)
    (hlt : now - t < cb.recovery_timeout) :
    cb.call now r = (cb, .error (.Internal "Circuit breaker is open"), false) := by
  obtain ⟨st, fc, th, lf, rt⟩ := cb
  cases hst
  cases hlf
  have hno : ¬ rt ≤ now - t := by
    simp only at hlt
    omega
  simp [SimpleCircuitBreaker.call, hno]

theorem call_open_trial {α : Type} (cb : SimpleCircuitBreaker) (now t : Nat)
    (r : Except AppError α)
    (hst : cb.state = .Open) (hlf : cb.last_failure_time = some t)
    (hge : cb.recovery_timeout ≤ now - t) :
    (cb.call now r).2.2 = true ∧
    (∀ v, r = .ok v → (cb.call now r).1 =
      { cb with state := .Closed, failure_count := 0, last_failure_time := none }) ∧
    (∀ e, r = .error e → (cb.call now r).1 =
      { cb with
          state :=
            if cb.failure_threshold ≤ cb.failure_count + 1 then .Open else .HalfOpen
          failure_count := cb.failure_count + 1
          last_failure_time := some now }) := by
  obtain ⟨st, fc, th, lf, rt⟩ := cb
  cases hst
  cases hlf
  have hyes : rt ≤ now - t := hge
  rcases r with e | v <;>
    simp_all [SimpleCircuitBreaker.call, SimpleCircuitBreaker.callUpstream]

theorem applyFailures_cons (tnow : Nat) (rest : List Nat) (cb : SimpleCircuitBreaker) :
    applyFailures (tnow :: rest) cb =
      applyFailures rest
        ((cb.call tnow (.error (AppError.BitSacco "upstream failure") : Except AppError Unit)).1) :=
  rfl

theorem applyFailures_open {times : List Nat} {cb : SimpleCircuitBreaker}
    (hst : cb.state = .Closed)
    (hsum : cb.failure_count + times.length = cb.failure_threshold)
    (hne : times ≠ []) :
    (applyFailures times cb).state = .Open := by
  induction times generalizing cb with
  | nil => exact absurd rfl hne
  | cons tnow rest ih =>
    rw [applyFailures_cons,
      call_closed_err cb tnow (AppError.BitSacco "upstream failure") hst]
    rcases rest with _ | ⟨t2, rest2⟩
    · simp only [List.length_cons, List.length_nil] at hsum
      have hth : cb.failure_threshold ≤ cb.failure_count + 1 := by omega
      show (if cb.failure_threshold ≤ cb.failure_count + 1 then CircuitState.Open
        else CircuitState.Closed) = CircuitState.Open
      exact if_pos hth
    · have hlt : ¬ cb.failure_threshold ≤ cb.failure_count + 1 := by
        simp only [List.length_cons] at hsum
        omega
      apply ih
      · show (if cb.failure_threshold ≤ cb.failure_count + 1 then CircuitState.Open
          else CircuitState.Closed) = CircuitState.Closed
        exact if_neg hlt
      · show cb.failure_count + 1 + (t2 :: rest2).length = cb.failure_threshold
        simp only [List.length_cons] at hsum ⊢
        omega
      · simp

end BitsaccoBot

namespace BitsaccoBot

/-- C3: the circuit-breaker state machine.  For every sequence of calls:
(a) `failure_threshold` consecutive failures from a fresh (Closed) breaker
open it; (b) a call attempted while Open before `recovery_timeout` has
elapsed since the last failure is rejected without invoking the upstream
function and leaves the breaker unchanged; (c) once `recovery_timeout` has
elapsed a trial call is allowed through (the upstream is invoked);
(d) a successful trial closes the breaker and resets the failure counter
to 0; (e) a failed trial reopens the breaker with `last_failure_time`
reset to the time of that failure. -/
theorem C3_circuit_breaker_state_machine (th tmo : Nat) (hth : 0 < th) :
    (∀ times : List Nat, times.length = th →
      (applyFailures times (SimpleCircuitBreaker.new th tmo)).state = .Open) ∧
    (∀ cb : SimpleCircuitBreaker, BreakerReachable th tmo cb → cb.state = .Open →
      ∀ t : Nat, cb.last_failure_time = some t → ∀ now : Nat, now - t < tmo →
      ∀ r : Except AppError Unit,
        (cb.call now r).2.2 = false ∧ (cb.call now r).1 = cb) ∧
    (∀ cb : SimpleCircuitBreaker, BreakerReachable th tmo cb → cb.state = .Open →
      ∀ t : Nat, cb.last_failure_time = some t → ∀ now : Nat, tmo ≤ now - t →
      ∀ r : Except AppError Unit, (cb.call now r).2.2 = true) ∧
    (∀ cb : SimpleCircuitBreaker, cb.state = .Open →
      ∀ t : Nat, cb.last_failure_time = some t →
      ∀ now : Nat, cb.recovery_timeout ≤ now - t →
        (cb.call now (.ok () : Except AppError Unit)).1.state = .Closed ∧
        (cb.call now (.ok () : Except AppError Unit)).1.failure_count = 0) ∧
    (∀ cb : SimpleCircuitBreaker, BreakerReachable th tmo cb → cb.state = .Open →
      ∀ t : Nat, cb.last_failure_time = some t → ∀ now : Nat, tmo ≤ now - t →
      ∀ e : AppError,
        (cb.call now (.error e : Except AppError Unit)).1.state = .Open ∧
        (cb.call now (.error e : Except AppError Unit)).1.last_failure_time = some now) := by
  refine ⟨?_, ?_, ?_, ?_, ?_⟩
  · intro times hlen
    refine applyFailures_open rfl ?_ ?_
    · simp [SimpleCircuitBreaker.new, hlen]
    · intro hnil
      rw [hnil] at hlen
      simp at hlen
      omega
  · intro cb hre hst t hlf now hlt r
    have htmo := (breakerReachable_inv hre).2.1
    have hblocked := call_open_blocked cb now t r hst hlf (by rw [htmo]; exact hlt)
    rw [hblocked]
    exact ⟨rfl, rfl⟩
  · intro cb hre hst t hlf now hge r
    have htmo := (breakerReachable_inv hre).2.1
    exact (call_open_trial cb now t r hst hlf (by rw [htmo]; exact hge)).1
  · intro cb hst t hlf now hge
    have htrial :=
      (call_open_trial cb now t (.ok () : Except AppError Unit) hst hlf hge).2.1 () rfl
    rw [htrial]
    exact ⟨rfl, rfl⟩
  · intro cb hre hst t hlf now hge e
    have htmo := (breakerReachable_inv hre).2.1
    have hcount : th ≤ cb.failure_count :=
      (breakerReachable_inv hre).2.2 (by rw [hst]; exact fun hh => CircuitState.noConfusion hh)
    have hthr := (breakerReachable_inv hre).1
    have htrial :=
      (call_open_trial cb now t (.error e : Except AppError Unit) hst hlf
        (by rw [htmo]; exact hge)).2.2 e rfl
    rw [htrial]
    constructor
    · show (if cb.failure_threshold ≤ cb.failure_count + 1 then CircuitState.Open
        else CircuitState.HalfOpen) = CircuitState.Open
      apply if_pos
      rw [hthr]
      omega
    · rfl

/-- C3 witness: with threshold 1 and timeout 5, one failure at tick 0 opens
the breaker; a call at tick 3 is rejected without invoking the upstream;
the trial at tick 6 with a failing upstream leaves the breaker Open with
the failure clock at 6. -/
theorem C3_circuit_breaker_state_machine_witness :
    (applyFailures [0] (SimpleCircuitBreaker.new 1 5)).state = .Open ∧
    ((applyFailures [0] (SimpleCircuitBreaker.new 1 5)).call 3
      (.ok () : Except AppError Unit)).2.2 = false ∧
    ((applyFailures [0] (SimpleCircuitBreaker.new 1 5)).call 6
      (.error (.BitSacco "upstream failure") : Except AppError Unit)).1.state = .Open := by
  have h := C3_circuit_breaker_state_machine 1 5 (by decide)
  have hre : BreakerReachable 1 5 (applyFailures [0] (SimpleCircuitBreaker.new 1 5)) :=
    BreakerReachable.step 0 (.error (.BitSacco "upstream failure")) BreakerReachable.init
  refine ⟨h.1 [0] rfl, ?_, ?_⟩
  · exact (h.2.1 _ hre (by decide) 0 (by decide) 3 (by decide) (.ok ())).1
  · exact (h.2.2.2.2 _ hre (by decide) 0 (by decide) 6 (by decide)
      (.BitSacco "upstream failure")).1

/-- C6 counterexample: the claim says a call rejected while Open yields a
distinct `CircuitOpen(upstream)` error variant.  In fact the taxonomy in
src/error.rs has no such variant: the rejection produced by a breaker
opened by five failures is `AppError::Internal("Circuit breaker is open")`,
the same variant used for generic internal errors such as the HTTP-client
construction failure in src/services/bitsacco.rs line 30, so the variant
alone cannot distinguish a circuit-open rejection. -/
theorem C6_counterexample :
    (cbOpenExample.call 1 (.ok () : Except AppError Unit)).2.1 =
      .error (.Internal "Circuit breaker is open") ∧
    AppError.variantIdx (.Internal "Circuit breaker is open") =
      AppError.variantIdx
        (.Internal "Failed to create HTTP client: builder error") := by decide

/-- C6 (amended): a call rejected because the breaker is Open (before the
recovery timeout) yields `AppError.Internal "Circuit breaker is open"` and
does not invoke the upstream; the rejection is recognisable only by the
message string, not by a dedicated variant. -/
theorem C6_rejection_error_internal (cb : SimpleCircuitBreaker) (now : Nat)
    (r : Except AppError Unit) (hopen : cb.state = .Open)
    (hblock : ∀ t, cb.last_failure_time = some t → now - t < cb.recovery_timeout) :
    (cb.call now r).2.1 = .error (.Internal "Circuit breaker is open") ∧
    (cb.call now r).2.2 = false := by
  rcases hlf : cb.last_failure_time with _ | t
  · obtain ⟨st, fc, th, lf, rt⟩ := cb
    cases hopen
    cases hlf
    simp [SimpleCircuitBreaker.call]
  · have hblocked := call_open_blocked cb now t r hopen hlf (hblock t hlf)
    rw [hblocked]
    exact ⟨rfl, rfl⟩

/-- C6 witness: the amended fact at the concrete opened breaker, tick 5. -/
theorem C6_rejection_error_internal_witness :
    (cbOpenExample.call 5 (.ok () : Except AppError Unit)).2.1 =
      .error (.Internal "Circuit breaker is open") ∧
    (cbOpenExample.call 5 (.ok () : Except AppError Unit)).2.2 = false :=
  C6_rejection_error_internal cbOpenExample 5 (.ok ()) (by decide)
    (fun t ht => by
      have h0 : cbOpenExample.last_failure_time = some 0 := by decide
      rw [h0] at ht
      cases ht
      decide)

end BitsaccoBot

namespace BitsaccoBot

/-! ## Concurrency and rate-limiter claims -/

/-- C8 counterexample: the claim says the breaker wrapper does not hold its
lock across the upstream I/O, so two concurrent calls through the same
breaker in Closed state can have their upstream invocations in flight
simultaneously.  In fact `ApiCircuitBreaker::call_whatsapp_api` awaits
`breaker.call(f)` while the `tokio::sync::Mutex` guard is alive: the
upstream invocation does not happen at lock depth 0, and no legal
interleaving of two wrapper executions ever has both tasks inside their
acquire..release sections at once. -/
theorem C8_counterexample :
    invokesOutsideLock call_whatsapp_api_events = false ∧
    overlapPossible = false := by decide

/-- C8 (amended): the wrapper holds the per-upstream mutex across
`SimpleCircuitBreaker::call`, upstream invocation included — every
`upstreamInvoke` event in a wrapper execution happens at positive lock
depth, so calls through the same breaker are fully serialized. -/
theorem C8_upstream_invoked_under_lock :
    invokesUnderLock call_whatsapp_api_events = true := by decide

/-- C9: every `handle_webhook` invocation builds a brand-new rate limiter
with burst size 10 scoped to that single request and checks it exactly
once, so the check always admits — for any configured requests-per-minute
and any number of consecutive inbound requests, no admission ever returns
the `RateLimit` error. -/
theorem C9_webhook_rate_limiter_always_admits (requests_per_minute n : Nat) :
    handle_webhook_admission requests_per_minute = .ok () ∧
    webhook_admissions requests_per_minute n =
      List.replicate n (.ok ()) := by
  constructor
  · rfl
  · rfl

end BitsaccoBot

namespace BitsaccoBot

/-! ## Dispatch-path claims -/

theorem breakerFree_append (a b : List UpstreamEvent) :
    breakerFreeTrace (a ++ b) = (breakerFreeTrace a && breakerFreeTrace b) := by
  simp [breakerFreeTrace]

theorem countHttpOutsideBreaker_of_breakerFree (evts : List UpstreamEvent)
    (h : breakerFreeTrace evts = true) :
    countHttpOutsideBreaker evts = countHttp evts := by
  unfold countHttpOutsideBreaker
  induction evts with
  | nil => rfl
  | cons e rest ih =>
    rcases e with ⟨u, ep⟩ | u | u
    · have h' : breakerFreeTrace rest = true := by
        simpa [breakerFreeTrace] using h
      simp [countHttpOutsideBreakerAux, countHttp, ih h']
    · exact absurd h (by simp [breakerFreeTrace])
    · exact absurd h (by simp [breakerFreeTrace])

theorem get_user_by_phone_breakerFree (up : UpstreamOracle) (phone : String)
    (cache : AppCache) (now : Nat) :
    breakerFreeTrace (BitSaccoService.get_user_by_phone up phone cache now).2.2 = true := by
  unfold BitSaccoService.get_user_by_phone
  (repeat' split) <;> simp [breakerFreeTrace]

theorem get_user_savings_breakerFree (up : UpstreamOracle) (user_id : String)
    (cache : AppCache) (now : Nat) :
    breakerFreeTrace (BitSaccoService.get_user_savings up user_id cache now).2.2 = true := by
  unfold BitSaccoService.get_user_savings
  (repeat' split) <;> simp [breakerFreeTrace]

theorem get_user_btc_balance_breakerFree (up : UpstreamOracle) (user_id : String)
    (cache : AppCache) (now : Nat) :
    breakerFreeTrace (BitSaccoService.get_user_btc_balance up user_id cache now).2.2 = true := by
  unfold BitSaccoService.get_user_btc_balance
  (repeat' split) <;> simp [breakerFreeTrace]

theorem get_total_savings_breakerFree (up : UpstreamOracle) (user_id : String)
    (cache : AppCache) (now : Nat) :
    breakerFreeTrace (BitSaccoService.get_total_savings up user_id cache now).2.2 = true := by
  unfold BitSaccoService.get_total_savings
  have h := get_user_savings_breakerFree up user_id cache now
  (repeat' split) <;> simp_all

theorem create_deposit_breakerFree (up : UpstreamOracle) (user_id : String)
    (amount : Rat) (currency : String) :
    breakerFreeTrace (BitSaccoService.create_deposit up user_id amount currency).2 = true := by
  unfold BitSaccoService.create_deposit BitSaccoService.create_mpesa_deposit
  (repeat' split) <;> simp_all [breakerFreeTrace]

theorem send_message_breakerFree (up : UpstreamOracle) (to_ message : String) :
    breakerFreeTrace (WhatsAppService.send_message up to_ message).2 = true := by
  unfold WhatsAppService.send_message
  (repeat' split) <;> simp [breakerFreeTrace]

theorem get_user_balance_breakerFree (up : UpstreamOracle) (cache : AppCache) (now : Nat)
    (phone : String) :
    breakerFreeTrace (get_user_balance up cache now phone).2.2 = true := by
  unfold get_user_balance
  rcases h1 : BitSaccoService.get_user_by_phone up phone cache now with ⟨r1, c1, ev1⟩
  have hb1 : breakerFreeTrace ev1 = true := by
    simpa [h1] using get_user_by_phone_breakerFree up phone cache now
  rcases r1 with e | user
  · simpa [h1] using hb1
  · rcases h2 : BitSaccoService.get_total_savings up user.id c1 now with ⟨r2, c2, ev2⟩
    have hb2 : breakerFreeTrace ev2 = true := by
      simpa [h2] using get_total_savings_breakerFree up user.id c1 now
    rcases r2 with e | savings
    · simp [h1, h2, breakerFree_append, hb1, hb2]
    · rcases h3 : BitSaccoService.get_user_btc_balance up user.id c2 now with ⟨r3, c3, ev3⟩
      have hb3 : breakerFreeTrace ev3 = true := by
        simpa [h3] using get_user_btc_balance_breakerFree up user.id c2 now
      rcases r3 with e | bal <;> simp [h1, h2, h3, breakerFree_append, hb1, hb2, hb3]

theorem get_btc_price_from_coinbase_breakerFree (up : UpstreamOracle)
    (currency : String) :
    breakerFreeTrace (BtcService.get_btc_price_from_coinbase up currency).2 = true := by
  unfold BtcService.get_btc_price_from_coinbase
  (repeat' split) <;> simp [breakerFreeTrace]

theorem get_btc_price_breakerFree (up : UpstreamOracle) (currency : String)
    (cache : AppCache) (now : Nat) :
    breakerFreeTrace (BtcService.get_btc_price up currency cache now).2.2 = true := by
  unfold BtcService.get_btc_price
  rcases cache.get_btc_price now currency with _ | price
  · rcases h1 : BtcService.get_btc_price_from_coinbase up currency with ⟨r1, ev1⟩
    have hb1 : breakerFreeTrace ev1 = true := by
      simpa [h1] using get_btc_price_from_coinbase_breakerFree up currency
    rcases r1 with e | p <;> simpa [h1] using hb1
  · simp [breakerFreeTrace]

theorem validate_registered_user_breakerFree (up : UpstreamOracle) (cache : AppCache)
    (now : Nat) (phone : String) :
    breakerFreeTrace (validate_registered_user up cache now phone).2.2 = true := by
  unfold validate_registered_user
  rcases h1 : BitSaccoService.get_user_by_phone up phone cache now with ⟨r1, c1, ev1⟩
  have hb1 : breakerFreeTrace ev1 = true := by
    simpa [h1] using get_user_by_phone_breakerFree up phone cache now
  rcases r1 with e | user <;> simpa [h1] using hb1

theorem webhook_create_deposit_breakerFree (up : UpstreamOracle) (cache : AppCache)
    (now : Nat) (phone : String) (amount : Rat) (currency : String) :
    breakerFreeTrace (webhook_create_deposit up cache now phone amount currency).2.2 = true := by
  unfold webhook_create_deposit
  rcases h1 : BitSaccoService.get_user_by_phone up phone cache now with ⟨r1, c1, ev1⟩
  have hb1 : breakerFreeTrace ev1 = true := by
    simpa [h1] using get_user_by_phone_breakerFree up phone cache now
  rcases r1 with e | user
  · simpa [h1] using hb1
  · rcases h2 : BitSaccoService.create_deposit up user.id amount currency with ⟨r2, ev2⟩
    have hb2 : breakerFreeTrace ev2 = true := by
      simpa [h2] using create_deposit_breakerFree up user.id amount currency
    rcases r2 with e | tx <;> simp [h1, h2, breakerFree_append, hb1, hb2]

theorem process_text_deposit_breakerFree (up : UpstreamOracle) (cache : AppCache)
    (now : Nat) (phone : String) (amount : Rat) (currency : String) :
    breakerFreeTrace (process_text_deposit up cache now phone amount currency).2.2 = true := by
  unfold process_text_deposit
  rcases h0 : validate_registered_user up cache now phone with ⟨r0, c0, ev0⟩
  have hb0 : breakerFreeTrace ev0 = true := by
    simpa [h0] using validate_registered_user_breakerFree up cache now phone
  rcases r0 with e | u0
  · simpa [h0] using hb0
  · rcases validate_amount amount with e | u1
    · simpa [h0] using hb0
    · rcases validate_currency currency with e | u2
      · simpa [h0] using hb0
      · dsimp only
        by_cases hkes : upperStr currency ≠ "KES"
        · rw [if_pos hkes]
          rcases hsm : WhatsAppService.send_message up phone
              "deposit-error-kes-only" with ⟨rs, evs⟩
          have hbs : breakerFreeTrace evs = true := by
            simpa [hsm] using send_message_breakerFree up phone "deposit-error-kes-only"
          rcases rs with e | us <;> simp [h0, hsm, breakerFree_append, hb0, hbs]
        · rw [if_neg hkes]
          rcases h2 : webhook_create_deposit up c0 now phone amount currency with ⟨r2, c2, ev2⟩
          have hb2 : breakerFreeTrace ev2 = true := by
            simpa [h2] using webhook_create_deposit_breakerFree up c0 now phone amount currency
          rcases r2 with e | tx
          · rcases hsm : WhatsAppService.send_message up phone "deposit-error" with ⟨rs, evs⟩
            have hbs : breakerFreeTrace evs = true := by
              simpa [hsm] using send_message_breakerFree up phone "deposit-error"
            rcases rs with e | us <;> simp [h0, h2, hsm, breakerFree_append, hb0, hb2, hbs]
          · rcases hsm : WhatsAppService.send_message up phone "deposit-success" with ⟨rs, evs⟩
            have hbs : breakerFreeTrace evs = true := by
              simpa [hsm] using send_message_breakerFree up phone "deposit-success"
            rcases rs with e | us <;> simp [h0, h2, hsm, breakerFree_append, hb0, hb2, hbs]

/-- C1 counterexample: the claim says no HTTP request to an upstream is
ever issued except from inside a `CircuitBreaker.call`.  A concrete
`Balance` dispatch on a cold cache issues three upstream HTTP requests,
all at breaker-section depth 0 — the `ApiCircuitBreaker` wrappers are
never entered on this path. -/
theorem C1_counterexample :
    (get_user_balance exOracle (AppCache.new CacheConfig.default_) 0 "+254700000001").1 =
      .ok (500, mkRat 1 2, "BTC") ∧
    countHttp
      (get_user_balance exOracle (AppCache.new CacheConfig.default_) 0 "+254700000001").2.2 = 3 ∧
    countHttpOutsideBreaker
      (get_user_balance exOracle (AppCache.new CacheConfig.default_) 0
        "+254700000001").2.2 = 3 := by decide

/-- C1 (amended): the dispatcher's data paths (`Balance`, BTC price,
deposit) call the services directly; their event traces never contain a
breaker section, so every upstream HTTP request they issue happens outside
any `CircuitBreaker.call` — the breaker wrappers of
src/circuit_breaker.rs are unused on these paths. -/
theorem C1_requests_outside_breaker (up : UpstreamOracle) (cache : AppCache) (now : Nat)
    (phone : String) (amount : Rat) (currency : String) :
    breakerFreeTrace (get_user_balance up cache now phone).2.2 = true ∧
    breakerFreeTrace (BtcService.get_btc_price_usd up cache now).2.2 = true ∧
    breakerFreeTrace (process_text_deposit up cache now phone amount currency).2.2 = true ∧
    countHttpOutsideBreaker (get_user_balance up cache now phone).2.2 =
      countHttp (get_user_balance up cache now phone).2.2 :=
  ⟨get_user_balance_breakerFree up cache now phone,
   get_btc_price_breakerFree up "usd" cache now,
   process_text_deposit_breakerFree up cache now phone amount currency,
   countHttpOutsideBreaker_of_breakerFree _ (get_user_balance_breakerFree up cache now phone)⟩

end BitsaccoBot

namespace BitsaccoBot

/-! ## Cache-invalidation claim (C2) -/

/-- The fields a read of savings or BTC balance depends on are unchanged
between two cache states. -/
def readCachesUnchanged (c c' : AppCache) : Prop :=
  c'.savings_cache = c.savings_cache ∧
  c'.btc_balance_cache = c.btc_balance_cache ∧
  c'.btc_price_cache = c.btc_price_cache ∧
  c'.savings_ttl = c.savings_ttl ∧
  c'.btc_price_ttl = c.btc_price_ttl

theorem readCachesUnchanged_refl (c : AppCache) : readCachesUnchanged c c :=
  ⟨rfl, rfl, rfl, rfl, rfl⟩

theorem readCachesUnchanged_trans {a b c : AppCache}
    (h1 : readCachesUnchanged a b) (h2 : readCachesUnchanged b c) :
    readCachesUnchanged a c := by
  obtain ⟨x1, x2, x3, x4, x5⟩ := h1
  obtain ⟨y1, y2, y3, y4, y5⟩ := h2
  exact ⟨y1.trans x1, y2.trans x2, y3.trans x3, y4.trans x4, y5.trans x5⟩

theorem set_user_readCachesUnchanged (c : AppCache) (now : Nat) (phone : String)
    (user : BitSaccoUser) : readCachesUnchanged c (c.set_user now phone user) :=
  ⟨rfl, rfl, rfl, rfl, rfl⟩

theorem get_user_by_phone_readCaches (up : UpstreamOracle) (phone : String)
    (cache : AppCache) (now : Nat) :
    readCachesUnchanged cache (BitSaccoService.get_user_by_phone up phone cache now).2.1 := by
  unfold BitSaccoService.get_user_by_phone
  (repeat' split) <;>
    first
    | exact readCachesUnchanged_refl cache
    | exact set_user_readCachesUnchanged cache now phone _

theorem validate_registered_user_readCaches (up : UpstreamOracle) (cache : AppCache)
    (now : Nat) (phone : String) :
    readCachesUnchanged cache (validate_registered_user up cache now phone).2.1 := by
  unfold validate_registered_user
  rcases h1 : BitSaccoService.get_user_by_phone up phone cache now with ⟨r1, c1, ev1⟩
  have hc1 : readCachesUnchanged cache c1 := by
    have := get_user_by_phone_readCaches up phone cache now
    rw [h1] at this
    exact this
  rcases r1 with e | user <;> simpa [h1] using hc1

theorem webhook_create_deposit_readCaches (up : UpstreamOracle) (cache : AppCache)
    (now : Nat) (phone : String) (amount : Rat) (currency : String) :
    readCachesUnchanged cache
      (webhook_create_deposit up cache now phone amount currency).2.1 := by
  unfold webhook_create_deposit
  rcases h1 : BitSaccoService.get_user_by_phone up phone cache now with ⟨r1, c1, ev1⟩
  have hc1 : readCachesUnchanged cache c1 := by
    have := get_user_by_phone_readCaches up phone cache now
    rw [h1] at this
    exact this
  rcases r1 with e | user
  · simpa [h1] using hc1
  · rcases h2 : BitSaccoService.create_deposit up user.id amount currency with ⟨r2, ev2⟩
    rcases r2 with e | tx <;> simpa [h1, h2] using hc1

theorem process_text_deposit_readCaches (up : UpstreamOracle) (cache : AppCache)
    (now : Nat) (phone : String) (amount : Rat) (currency : String) :
    readCachesUnchanged cache
      (process_text_deposit up cache now phone amount currency).2.1 := by
  unfold process_text_deposit
  rcases h0 : validate_registered_user up cache now phone with ⟨r0, c0, ev0⟩
  have hc0 : readCachesUnchanged cache c0 := by
    have := validate_registered_user_readCaches up cache now phone
    rw [h0] at this
    exact this
  rcases r0 with e | u0
  · simpa [h0] using hc0
  · rcases validate_amount amount with e | u1
    · simpa [h0] using hc0
    · rcases validate_currency currency with e | u2
      · simpa [h0] using hc0
      · dsimp only
        by_cases hkes : upperStr currency ≠ "KES"
        · rw [if_pos hkes]
          rcases hsm : WhatsAppService.send_message up phone
              "deposit-error-kes-only" with ⟨rs, evs⟩
          rcases rs with e | us <;> simpa [h0, hsm] using hc0
        · rw [if_neg hkes]
          rcases h2 : webhook_create_deposit up c0 now phone amount currency with ⟨r2, c2, ev2⟩
          have hc2 : readCachesUnchanged c0 c2 := by
            have := webhook_create_deposit_readCaches up c0 now phone amount currency
            rw [h2] at this
            exact this
          have hcc := readCachesUnchanged_trans hc0 hc2
          rcases r2 with e | tx
          · rcases hsm : WhatsAppService.send_message up phone "deposit-error" with ⟨rs, evs⟩
            rcases rs with e | us <;> simpa [h0, h2, hsm] using hcc
          · rcases hsm : WhatsAppService.send_message up phone "deposit-success" with ⟨rs, evs⟩
            rcases rs with e | us <;> simpa [h0, h2, hsm] using hcc

theorem get_savings_of_readCachesUnchanged {c c' : AppCache}
    (h : readCachesUnchanged c c') (now : Nat) (uid : String) :
    c'.get_savings now uid = c.get_savings now uid := by
  unfold AppCache.get_savings
  rw [h.1, h.2.2.2.1]

theorem get_btc_balance_of_readCachesUnchanged {c c' : AppCache}
    (h : readCachesUnchanged c c') (now : Nat) (uid : String) :
    c'.get_btc_balance now uid = c.get_btc_balance now uid := by
  unfold AppCache.get_btc_balance
  rw [h.2.1, h.2.2.2.1]

/-- C2 counterexample: the claim says a successful deposit invalidates the
user's savings/balance cache entries, so a subsequent read does not return
the pre-write cached value.  Concretely: with the user's savings and BTC
balance cached at tick 0, a deposit of 100 KES at tick 1 completes
successfully, yet an immediately following read (tick 1, well within the
TTLs) still returns the pre-write cached savings list and balance. -/
theorem C2_counterexample :
    (process_text_deposit exOracle exCache 1 "+254700000001" 100 "KES").1 = .ok () ∧
    exCache.get_savings 1 "u1" = some [exSaving] ∧
    (process_text_deposit exOracle exCache 1 "+254700000001" 100
        "KES").2.1.get_savings 1 "u1" = some [exSaving] ∧
    (process_text_deposit exOracle exCache 1 "+254700000001" 100
        "KES").2.1.get_btc_balance 1 "u1" = some exBal := by decide

/-- C2 (amended): the deposit dispatch path never invalidates any cache
entry: for every oracle, cache state, tick and input, the savings and
BTC-balance reads after the deposit return exactly what they returned
before it (the path touches only the user-profile cache, via the cached
lookup). -/
theorem C2_no_cache_invalidation (up : UpstreamOracle) (cache : AppCache) (now : Nat)
    (phone : String) (amount : Rat) (currency : String) (uid : String) :
    (process_text_deposit up cache now phone amount currency).2.1.get_savings now uid =
      cache.get_savings now uid ∧
    (process_text_deposit up cache now phone amount currency).2.1.get_btc_balance now uid =
      cache.get_btc_balance now uid :=
  ⟨get_savings_of_readCachesUnchanged
      (process_text_deposit_readCaches up cache now phone amount currency) now uid,
   get_btc_balance_of_readCachesUnchanged
      (process_text_deposit_readCaches up cache now phone amount currency) now uid⟩

end BitsaccoBot

namespace BitsaccoBot

/-! ## Balance read-path caching claim (C7) -/

theorem get_user_balance_cold (up : UpstreamOracle) (cfg : CacheConfig) (phone : String)
    (now : Nat) (user : BitSaccoUser) (savs : List BitSaccoSavings)
    (bal : BitSaccoBtcBalance)
    (h1 : up.userByPhone phone = .ok user)
    (h2 : up.savingsOf user.id = .ok savs)
    (h3 : up.btcBalanceOf user.id = .ok bal) :
    get_user_balance up (AppCache.new cfg) now phone =
      (.ok (ratSum (savs.map (fun s => s.amount)), bal.balance, bal.currency),
       (((AppCache.new cfg).set_user now phone user).set_savings now user.id
           savs).set_btc_balance now user.id bal,
       [.httpRequest "bitsacco" ("users/phone/" ++ phone),
        .httpRequest "bitsacco" ("users/" ++ user.id ++ "/savings"),
        .httpRequest "bitsacco" ("users/" ++ user.id ++ "/btc-balance")]) := by
  unfold get_user_balance BitSaccoService.get_user_by_phone BitSaccoService.get_total_savings
    BitSaccoService.get_user_savings BitSaccoService.get_user_btc_balance
  simp [AppCache.get_user, AppCache.get_savings, AppCache.get_btc_balance,
    AppCache.new, AppCache.set_user, AppCache.set_savings, AppCache.set_btc_balance,
    cacheGet, cacheLookup, cacheInsert, h1, h2, h3]

theorem get_user_balance_warm (up : UpstreamOracle) (cfg : CacheConfig) (phone : String)
    (now now2 : Nat) (user : BitSaccoUser) (savs : List BitSaccoSavings)
    (bal : BitSaccoBtcBalance)
    (hu : now2 - now < cfg.user_cache_ttl)
    (hs : now2 - now < cfg.savings_cache_ttl) :
    get_user_balance up
      ((((AppCache.new cfg).set_user now phone user).set_savings now user.id
          savs).set_btc_balance now user.id bal) now2 phone =
      (.ok (ratSum (savs.map (fun s => s.amount)), bal.balance, bal.currency),
       (((AppCache.new cfg).set_user now phone user).set_savings now user.id
           savs).set_btc_balance now user.id bal,
       []) := by
  unfold get_user_balance BitSaccoService.get_user_by_phone BitSaccoService.get_total_savings
    BitSaccoService.get_user_savings BitSaccoService.get_user_btc_balance
  simp [AppCache.get_user, AppCache.get_savings, AppCache.get_btc_balance,
    AppCache.new, AppCache.set_user, AppCache.set_savings, AppCache.set_btc_balance,
    cacheGet, cacheLookup, cacheInsert, hu, hs]

/-- C7: a `Balance` dispatch for an identity with no cached data performs
exactly one upstream fetch per required entity (user profile, savings,
BTC balance — in that order, one HTTP request each) and one cache set per
entity (a subsequent lookup of each entity hits); an immediately following
`Balance` dispatch for the same identity within the TTLs performs zero
upstream fetches and returns the same reply entirely from cache. -/
theorem C7_balance_read_caching (up : UpstreamOracle) (cfg : CacheConfig) (phone : String)
    (now now2 : Nat) (user : BitSaccoUser) (savs : List BitSaccoSavings)
    (bal : BitSaccoBtcBalance)
    (h1 : up.userByPhone phone = .ok user)
    (h2 : up.savingsOf user.id = .ok savs)
    (h3 : up.btcBalanceOf user.id = .ok bal)
    (hu : now2 - now < cfg.user_cache_ttl)
    (hs : now2 - now < cfg.savings_cache_ttl) :
    (get_user_balance up (AppCache.new cfg) now phone).1 =
      .ok (ratSum (savs.map (fun s => s.amount)), bal.balance, bal.currency) ∧
    (get_user_balance up (AppCache.new cfg) now phone).2.2 =
      [.httpRequest "bitsacco" ("users/phone/" ++ phone),
       .httpRequest "bitsacco" ("users/" ++ user.id ++ "/savings"),
       .httpRequest "bitsacco" ("users/" ++ user.id ++ "/btc-balance")] ∧
    (get_user_balance up (AppCache.new cfg) now phone).2.1.get_user now2 phone = some user ∧
    (get_user_balance up (AppCache.new cfg) now phone).2.1.get_savings now2 user.id =
      some savs ∧
    (get_user_balance up (AppCache.new cfg) now phone).2.1.get_btc_balance now2 user.id =
      some bal ∧
    (get_user_balance up
        (get_user_balance up (AppCache.new cfg) now phone).2.1 now2 phone).1 =
      (get_user_balance up (AppCache.new cfg) now phone).1 ∧
    (get_user_balance up
        (get_user_balance up (AppCache.new cfg) now phone).2.1 now2 phone).2.2 = [] := by
  have hcold := get_user_balance_cold up cfg phone now user savs bal h1 h2 h3
  have hwarm := get_user_balance_warm up cfg phone now now2 user savs bal hu hs
  rw [hcold]
  refine ⟨rfl, rfl, ?_, ?_, ?_, ?_, ?_⟩
  · simp [AppCache.get_user, AppCache.new, AppCache.set_user, AppCache.set_savings,
      AppCache.set_btc_balance, cacheGet, cacheLookup, cacheInsert, hu]
  · simp [AppCache.get_savings, AppCache.new, AppCache.set_user, AppCache.set_savings,
      AppCache.set_btc_balance, cacheGet, cacheLookup, cacheInsert, hs]
  · simp [AppCache.get_btc_balance, AppCache.new, AppCache.set_user, AppCache.set_savings,
      AppCache.set_btc_balance, cacheGet, cacheLookup, cacheInsert, hs]
  · rw [hwarm]
  · rw [hwarm]

/-- C7 witness: the cold/warm pair at the concrete fixture oracle, with the
first dispatch at tick 0 and the second at tick 5 (inside all TTLs). -/
theorem C7_balance_read_caching_witness :
    (get_user_balance exOracle (AppCache.new CacheConfig.default_) 0 "+254700000001").2.2 =
      [.httpRequest "bitsacco" "users/phone/+254700000001",
       .httpRequest "bitsacco" "users/u1/savings",
       .httpRequest "bitsacco" "users/u1/btc-balance"] ∧
    (get_user_balance exOracle
        (get_user_balance exOracle (AppCache.new CacheConfig.default_) 0
          "+254700000001").2.1 5 "+254700000001").2.2 = [] := by
  have h := C7_balance_read_caching exOracle CacheConfig.default_ "+254700000001" 0 5
    exUser [exSaving] exBal rfl rfl rfl (by decide) (by decide)
  exact ⟨h.2.1, h.2.2.2.2.2.2⟩

end BitsaccoBot
